import Mathlib

/-!
Verification development for the framed transport layer of
`uamqp/_transport.py` (pure-Python AMQP 1.0 transport).

The embedding models the observable behaviour of
* `unpack_frame_header` (frame header parsing),
* `SSLTransport._read` (the exact-n read loop over a socket, with an
  internal pending buffer `self._read_buffer`),
* `_AbstractTransport.read` (framed read: 8-byte header, then payload,
  with the timeout / I/O-error handling of the `except` clauses),
* `SSLTransport._write` and `_AbstractTransport.write` (framed write).

Bytes are `Nat`s; the socket is modelled as a finite list of events: each
`recv` (resp. `send`) call consumes one event, which either delivers a
chunk of bytes (an empty chunk is EOF, Python's `if not s`) or raises an
exception.  Python exceptions relevant here are modelled by `Exc`:
`socket.timeout`, OSError-family errors carrying an optional `errno`
(`get_errno` returns `None` when the exception has no errno, e.g. the
`IOError("Server unexpectedly closed connection")` raised on EOF, modelled
as `connClosed`), and `ValueError` (bad header length / unexpected frame
type).  Exhaustion of the event list during a blocking call is modelled as
the socket timing out.  Python's signed `int` slicing semantics are kept
(`pySliceTo` / `pySliceFrom`), since `read(size - len(frame_header))` can
receive a negative argument.
-/

/- Linux errno values used by the source (`errno` module). -/
def EAGAIN : Nat := 11

def EINTR : Nat := 4

def ENOENT : Nat := 2

def EWOULDBLOCK : Nat := 11

/-- `_UNAVAIL = {errno.EAGAIN, errno.EINTR, errno.ENOENT, errno.EWOULDBLOCK}`. -/
def UNAVAIL : List Nat := [EAGAIN, EINTR, ENOENT, EWOULDBLOCK]

/-- `SSLTransport._read`'s `_errnos=(errno.ENOENT, errno.EAGAIN, errno.EINTR)`. -/
def sslErrnos : List Nat := [ENOENT, EAGAIN, EINTR]

/-- `SIGNED_INT_MAX = 0x7FFFFFFF`. -/
def SIGNED_INT_MAX : Nat := 0x7FFFFFFF

/-- Exceptions observable from the transport code. `oserr e` is an
`OSError`/`socket.error`/`SSLError` whose `get_errno` is `e` (`none` when
the exception carries no errno); `connClosed` is the
`IOError("Server unexpectedly closed connection")` / `IOError("Socket
closed")` raised on a zero-byte recv/send (its `get_errno` is `None`);
`valueErr` is Python `ValueError`. -/
inductive Exc where
  | timeout : Exc
  | oserr (errno : Option Nat) : Exc
  | connClosed : Exc
  | valueErr : Exc
deriving DecidableEq, Repr

/-- What a single `sock.recv` call does: `data s` returns the chunk `s`
(`s = []` is EOF), `exn e` raises. `sslTimedOut` is an `ssl.SSLError`
whose message contains `'timed out'` (bpo-10272). -/
inductive SockExc where
  | timeout : SockExc
  | sslTimedOut : SockExc
  | oserror (errno : Option Nat) : SockExc
deriving DecidableEq, Repr

inductive RecvEvent where
  | data (s : List Nat) : RecvEvent
  | exn (e : SockExc) : RecvEvent
deriving DecidableEq, Repr

/-- What a single `sock.send` call does: `sent n` accepts `n` bytes,
`exn e` raises a socket-level error, `valErr` raises `ValueError`
(the `sock._sslobj is None` case, caught by `_write` and treated as a
zero-byte send). -/
inductive SendEvent where
  | sent (n : Nat) : SendEvent
  | exn (e : SockExc) : SendEvent
  | valErr : SendEvent
deriving DecidableEq, Repr

/-- Python `l[:n]` on a byte string, for a signed `n`. -/
def pySliceTo (l : List Nat) (n : Int) : List Nat :=
  if 0 ≤ n then l.take n.toNat else l.take (l.length - (-n).toNat)

/-- Python `l[n:]` on a byte string, for a signed `n`. -/
def pySliceFrom (l : List Nat) (n : Int) : List Nat :=
  if 0 ≤ n then l.drop n.toNat else l.drop (l.length - (-n).toNat)

deriving instance DecidableEq for Except

/-- `get_errno(exc) in _UNAVAIL` — `False` when the errno is `None`
(`None not in _UNAVAIL`). -/
def unavailMem : Option Nat → Bool
  | some v => decide (v ∈ UNAVAIL)
  | none => false

/-- Result of one `_read` call: the returned bytes (or the raised
exception), the final `self._read_buffer`, and the remaining socket
events. -/
structure RRes where
  out : Except Exc (List Nat)
  buf : List Nat
  rem : List RecvEvent
deriving DecidableEq, Repr

/-- `SSLTransport._read(self, n, initial)`: loop `recv`ing until the
local `rbuf` holds at least `n` bytes; errno in `_errnos` retries
(or raises `socket.timeout` when `initial and self.raise_on_initial_eintr`);
an `SSLError` containing `'timed out'` and a raised `socket.timeout`
both propagate as `socket.timeout` (a `socket.timeout` has errno `None`,
which is not in `_errnos`, so it is re-raised as itself); a zero-byte
recv raises `IOError('Server unexpectedly closed connection')`.  The bare
`except:` stores `rbuf` into `self._read_buffer` on every exception.
On success the result is `rbuf[:n]` and the buffer `rbuf[n:]`. -/
def sslRead (rie initial : Bool) (n : Int) (events : List RecvEvent)
    (rbuf : List Nat) : RRes :=
    if (rbuf.length : Int) < n then
      match events with
      | [] => ⟨.error .timeout, rbuf, []⟩
      | .data s :: rest =>
        if s.isEmpty then ⟨.error .connClosed, rbuf, rest⟩
        else sslRead rie initial n rest (rbuf ++ s)
      | .exn e :: rest =>
        match e with
        | .sslTimedOut => ⟨.error .timeout, rbuf, rest⟩
        | .timeout => ⟨.error .timeout, rbuf, rest⟩
        | .oserror eo =>
          match eo with
          | some v =>
            if v ∈ sslErrnos then
              if initial && rie then ⟨.error .timeout, rbuf, rest⟩
              else sslRead rie initial n rest rbuf
            else ⟨.error (.oserr (some v)), rbuf, rest⟩
          | none => ⟨.error (.oserr none), rbuf, rest⟩
    else ⟨.ok (pySliceTo rbuf n), pySliceFrom rbuf n, events⟩

/-- `unpack_frame_header(data)`: reject inputs whose length is not 8;
`size` is `None` when the first four bytes are ASCII `AMQP`, else the
big-endian u32 of bytes 0-3; `offset` is byte 4, `frame_type` byte 5,
`channel` the big-endian u16 of bytes 6-7. -/
def unpack_frame_header (data : List Nat) :
    Except Exc (Option Nat × Nat × Nat × Nat) :=
  if data.length ≠ 8 then .error .valueErr
  else
    let size : Option Nat :=
      if data.take 4 = [0x41, 0x4D, 0x51, 0x50] then none
      else
        some (((data.getD 0 0 * 256 + data.getD 1 0) * 256
          + data.getD 2 0) * 256 + data.getD 3 0)
    let offset := data.getD 4 0
    let frame_type := data.getD 5 0
    let channel := data.getD 6 0 * 256 + data.getD 7 0
    .ok (size, offset, frame_type, channel)

/-- The transport state visible to the claims: the `connected` flag, the
pending `self._read_buffer`, and `self.raise_on_initial_eintr`. -/
structure TState where
  connected : Bool
  read_buffer : List Nat
  raise_on_initial_eintr : Bool
deriving DecidableEq, Repr

/-- `(frame_header, channel, payload-or-None, offset)` as returned by
`_AbstractTransport.read`. -/
abbrev FrameRes :=
  List Nat × Nat × Option (List Nat) × Nat

/-- Python falsiness of the parsed `size` (`if not size:`): `None` or `0`. -/
def sizeFalsy : Option Nat → Bool
  | none => true
  | some s => s == 0

/-- `verify_frame_type is not None and frame_type != verify_frame_type`. -/
def vtMismatch : Option Nat → Nat → Bool
  | none, _ => false
  | some v, ft => ft != v

/-- The `except` clauses of `_AbstractTransport.read`.
`read_frame_buffer` holds the bytes already returned by completed `_read`
calls in this `read` call; `curBuf` is `self._read_buffer` as left by the
failing `_read`.  `socket.timeout` prepends `read_frame_buffer` to the
buffer; OSError-family errors whose `get_errno` is not in `_UNAVAIL`
(including errno `None`, since `None not in _UNAVAIL`) clear `connected`;
`ValueError` is caught by neither clause.  (The clause re-raising an
`SSLError` containing `'timed out'` as `socket.timeout` is unreachable
here: `SSLTransport._read` already converts those.) -/
def handleReadExc (st : TState) (e : Exc)
    (read_frame_buffer curBuf : List Nat) (rem : List RecvEvent) :
    Except Exc FrameRes × TState × List RecvEvent :=
  match e with
  | .timeout =>
    (.error .timeout,
      { st with read_buffer := read_frame_buffer ++ curBuf }, rem)
  | .connClosed =>
    (.error .connClosed,
      { st with read_buffer := curBuf, connected := false }, rem)
  | .oserr eo =>
    if unavailMem eo then
      (.error (.oserr eo), { st with read_buffer := curBuf }, rem)
    else
      (.error (.oserr eo),
        { st with read_buffer := curBuf, connected := false }, rem)
  | .valueErr =>
    (.error .valueErr, { st with read_buffer := curBuf }, rem)

/-- `_AbstractTransport.read(self, unpack=unpack_frame_header,
verify_frame_type)`: read 8 header bytes, parse them, return early on a
falsy size, check the frame type, then read the payload — split in two
`read` calls when `size > SIGNED_INT_MAX`, else `size - len(frame_header)`
bytes — with the source's exception handling.  Note that
`read_frame_buffer += payload` only runs after the whole payload is
assembled, so on an exception inside the second split read the bytes of
the first split read are in neither `read_frame_buffer` nor the
`_read` buffer. -/
def transport_read (st : TState) (events : List RecvEvent)
    (verify_frame_type : Option Nat) :
    Except Exc FrameRes × TState × List RecvEvent :=
  match sslRead st.raise_on_initial_eintr true 8 events st.read_buffer with
  | ⟨.error e, buf1, rem1⟩ => handleReadExc st e [] buf1 rem1
  | ⟨.ok frame_header, buf1, rem1⟩ =>
    match unpack_frame_header frame_header with
    | .error e => (.error e, { st with read_buffer := buf1 }, rem1)
    | .ok (size, offset, frame_type, channel) =>
      if sizeFalsy size then
        (.ok (frame_header, channel, none, offset),
          { st with read_buffer := buf1 }, rem1)
      else if vtMismatch verify_frame_type frame_type then
        (.error .valueErr, { st with read_buffer := buf1 }, rem1)
      else if SIGNED_INT_MAX < size.getD 0 then
        match sslRead st.raise_on_initial_eintr false
            (SIGNED_INT_MAX : Int) rem1 buf1 with
        | ⟨.error e, buf2, rem2⟩ => handleReadExc st e frame_header buf2 rem2
        | ⟨.ok p1, buf2, rem2⟩ =>
          match sslRead st.raise_on_initial_eintr false
              ((size.getD 0 : Int) - (SIGNED_INT_MAX : Int)) rem2 buf2 with
          | ⟨.error e, buf3, rem3⟩ => handleReadExc st e frame_header buf3 rem3
          | ⟨.ok p2, buf3, rem3⟩ =>
            (.ok (frame_header, channel, some (p1 ++ p2), offset),
              { st with read_buffer := buf3 }, rem3)
      else
        match sslRead st.raise_on_initial_eintr false
            ((size.getD 0 : Int) - (frame_header.length : Int)) rem1 buf1 with
        | ⟨.error e, buf2, rem2⟩ => handleReadExc st e frame_header buf2 rem2
        | ⟨.ok payload, buf2, rem2⟩ =>
          (.ok (frame_header, channel, some payload, offset),
            { st with read_buffer := buf2 }, rem2)

/-- `SSLTransport._write(self, s)`: loop `sock.send`ing until all of `s`
is written; `ValueError` from `send` is treated as a zero-byte send; a
zero-byte send raises `IOError('Socket closed')`; socket-level errors
propagate raw (an `SSLError` carries errno `None`). -/
def sslWrite (events : List SendEvent) (s : List Nat) :
    Except Exc Unit × List SendEvent :=
    if s.isEmpty then (.ok (), events)
    else
      match events with
      | [] => (.error .timeout, [])
      | .sent n :: rest =>
        if n = 0 then (.error .connClosed, rest)
        else sslWrite rest (s.drop n)
      | .valErr :: rest => (.error .connClosed, rest)
      | .exn e :: rest =>
        match e with
        | .timeout => (.error .timeout, rest)
        | .sslTimedOut => (.error (.oserr none), rest)
        | .oserror eo => (.error (.oserr eo), rest)

/-- `_AbstractTransport.write(self, s)`: `socket.timeout` passes through
untouched; OSError-family errors whose `get_errno` is not in `_UNAVAIL`
clear `connected`; every error propagates. -/
def transport_write (st : TState) (events : List SendEvent)
    (s : List Nat) : Except Exc Unit × TState × List SendEvent :=
  match sslWrite events s with
  | (.ok (), rem) => (.ok (), st, rem)
  | (.error e, rem) =>
    match e with
    | .timeout => (.error .timeout, st, rem)
    | .valueErr => (.error .valueErr, st, rem)
    | .connClosed => (.error .connClosed, { st with connected := false }, rem)
    | .oserr eo =>
      if unavailMem eo then
        (.error (.oserr eo), st, rem)
      else
        (.error (.oserr eo), { st with connected := false }, rem)

/-- The bytes delivered by the socket across a list of recv events. -/
def deliveredOf : List RecvEvent → List Nat
  | [] => []
  | .data s :: rest => s ++ deliveredOf rest
  | .exn _ :: rest => deliveredOf rest

/-- The whole byte stream a read can observe: pending buffer first, then
whatever the socket delivers. -/
def streamOf (st : TState) (ev : List RecvEvent) : List Nat :=
  st.read_buffer ++ deliveredOf ev

/-- For a `_read` outcome, the bytes the transport now holds: the
returned bytes (still owed to the caller) followed by the buffer. -/
def outBytes (r : RRes) : List Nat :=
  match r.out with
  | .ok res => res ++ r.buf
  | .error _ => r.buf

/-- The first 8 observable bytes do not parse to a frame size above
`SIGNED_INT_MAX` (i.e. the incoming frame, if any, is not oversized). -/
def smallFrameOk (st : TState) (ev : List RecvEvent) : Bool :=
  match unpack_frame_header ((streamOf st ev).take 8) with
  | .ok (some s, _, _, _) => decide (s ≤ SIGNED_INT_MAX)
  | _ => true

/-- Header bytes of an oversized frame: size field `0x80000000` = `2^31`
(which exceeds `SIGNED_INT_MAX`), doff 2, frame type 0, channel 0. -/
def bigHeader : List Nat := [0x80, 0, 0, 0, 2, 0, 0, 0]

/-- A connected transport whose pending buffer already holds the 8
header bytes of the oversized frame plus `2^31` further bytes. -/
def bigState : TState :=
  { connected := true,
    read_buffer := bigHeader ++ List.replicate (2 ^ 31) 55,
    raise_on_initial_eintr := true }

/-- A connected transport whose pending buffer holds the 8 header bytes
of the oversized frame plus `2^31 - 1 = SIGNED_INT_MAX` further bytes. -/
def bigStatePart : TState :=
  { connected := true,
    read_buffer := bigHeader ++ List.replicate (2 ^ 31 - 1) 55,
    raise_on_initial_eintr := true }

/-! ## Helper lemmas -/

theorem pySlice_join (l : List Nat) (n : Int) :
    pySliceTo l n ++ pySliceFrom l n = l := by
  unfold pySliceTo pySliceFrom
  split <;> exact List.take_append_drop _ _

theorem pySliceTo_nonneg (l : List Nat) (n : Int) (h : 0 ≤ n) :
    pySliceTo l n = l.take n.toNat := by
  unfold pySliceTo
  rw [if_pos h]

theorem pySliceFrom_nonneg (l : List Nat) (n : Int) (h : 0 ≤ n) :
    pySliceFrom l n = l.drop n.toNat := by
  unfold pySliceFrom
  rw [if_pos h]
/-- One step of `sslRead`: when enough bytes are buffered the loop body
never runs. -/
theorem sslRead_of_le (rie init : Bool) (n : Int) (events : List RecvEvent)
    (rbuf : List Nat) (h : n ≤ (rbuf.length : Int)) :
    sslRead rie init n events rbuf =
      ⟨.ok (pySliceTo rbuf n), pySliceFrom rbuf n, events⟩ := by
  rw [sslRead.eq_def, if_neg (not_lt.mpr h)]

theorem sslRead_nil (rie init : Bool) (n : Int) (rbuf : List Nat)
    (hlt : (rbuf.length : Int) < n) :
    sslRead rie init n [] rbuf = ⟨.error .timeout, rbuf, []⟩ := by
  rw [sslRead.eq_def, if_pos hlt]

theorem sslRead_data_cons (rie init : Bool) (n : Int) (s : List Nat)
    (rest : List RecvEvent) (rbuf : List Nat)
    (hlt : (rbuf.length : Int) < n) (hs : s.isEmpty = false) :
    sslRead rie init n (.data s :: rest) rbuf =
      sslRead rie init n rest (rbuf ++ s) := by
  rw [sslRead.eq_def, if_pos hlt]
  simp [hs]

theorem sslRead_data_eof (rie init : Bool) (n : Int)
    (rest : List RecvEvent) (rbuf : List Nat)
    (hlt : (rbuf.length : Int) < n) :
    sslRead rie init n (.data [] :: rest) rbuf =
      ⟨.error .connClosed, rbuf, rest⟩ := by
  rw [sslRead.eq_def, if_pos hlt]
  simp

theorem sslRead_exn_timeout (rie init : Bool) (n : Int)
    (rest : List RecvEvent) (rbuf : List Nat)
    (hlt : (rbuf.length : Int) < n) :
    sslRead rie init n (.exn .timeout :: rest) rbuf =
      ⟨.error .timeout, rbuf, rest⟩ := by
  rw [sslRead.eq_def, if_pos hlt]

theorem sslRead_exn_ssltimeout (rie init : Bool) (n : Int)
    (rest : List RecvEvent) (rbuf : List Nat)
    (hlt : (rbuf.length : Int) < n) :
    sslRead rie init n (.exn .sslTimedOut :: rest) rbuf =
      ⟨.error .timeout, rbuf, rest⟩ := by
  rw [sslRead.eq_def, if_pos hlt]

theorem sslRead_exn_none (rie init : Bool) (n : Int)
    (rest : List RecvEvent) (rbuf : List Nat)
    (hlt : (rbuf.length : Int) < n) :
    sslRead rie init n (.exn (.oserror none) :: rest) rbuf =
      ⟨.error (.oserr none), rbuf, rest⟩ := by
  rw [sslRead.eq_def, if_pos hlt]

theorem sslRead_exn_some (rie init : Bool) (n : Int) (v : Nat)
    (rest : List RecvEvent) (rbuf : List Nat)
    (hlt : (rbuf.length : Int) < n) :
    sslRead rie init n (.exn (.oserror (some v)) :: rest) rbuf =
      (if v ∈ sslErrnos then
        if init && rie then ⟨.error .timeout, rbuf, rest⟩
        else sslRead rie init n rest rbuf
      else ⟨.error (.oserr (some v)), rbuf, rest⟩) := by
  rw [sslRead.eq_def, if_pos hlt]

/-- A successful `_read` returns exactly the requested number of bytes
(for a nonnegative request). -/
theorem sslRead_ok_length (rie init : Bool) (n : Int) (hn : 0 ≤ n) :
    ∀ (events : List RecvEvent) (rbuf r buf : List Nat)
      (rem : List RecvEvent),
      sslRead rie init n events rbuf = ⟨.ok r, buf, rem⟩ →
      r.length = n.toNat := by
  intro events
  induction events with
  | nil =>
    intro rbuf r buf rem h
    by_cases hlt : (rbuf.length : Int) < n
    · rw [sslRead_nil _ _ _ _ hlt] at h
      simp at h
    · rw [sslRead_of_le _ _ _ _ _ (not_lt.mp hlt)] at h
      simp only [RRes.mk.injEq, Except.ok.injEq] at h
      obtain ⟨rfl, -, -⟩ := h
      rw [pySliceTo_nonneg _ _ hn, List.length_take]
      refine inf_eq_left.mpr ?_
      omega
  | cons ev rest ih =>
    intro rbuf r buf rem h
    by_cases hlt : (rbuf.length : Int) < n
    · match ev with
      | .data s =>
        cases hs : s.isEmpty with
        | true =>
          rw [List.isEmpty_iff.mp hs, sslRead_data_eof _ _ _ _ _ hlt] at h
          simp at h
        | false =>
          rw [sslRead_data_cons _ _ _ _ _ _ hlt hs] at h
          exact ih _ _ _ _ h
      | .exn .timeout =>
        rw [sslRead_exn_timeout _ _ _ _ _ hlt] at h; simp at h
      | .exn .sslTimedOut =>
        rw [sslRead_exn_ssltimeout _ _ _ _ _ hlt] at h; simp at h
      | .exn (.oserror none) =>
        rw [sslRead_exn_none _ _ _ _ _ hlt] at h; simp at h
      | .exn (.oserror (some v)) =>
        rw [sslRead_exn_some _ _ _ _ _ _ hlt] at h
        by_cases hv : v ∈ sslErrnos
        · rw [if_pos hv] at h
          by_cases hir : (init && rie) = true
          · rw [if_pos hir] at h; simp at h
          · rw [if_neg hir] at h; exact ih _ _ _ _ h
        · rw [if_neg hv] at h; simp at h
    · rw [sslRead_of_le _ _ _ _ _ (not_lt.mp hlt)] at h
      simp only [RRes.mk.injEq, Except.ok.injEq] at h
      obtain ⟨rfl, -, -⟩ := h
      rw [pySliceTo_nonneg _ _ hn, List.length_take]
      refine inf_eq_left.mpr ?_
      omega

theorem deliveredOf_append (a b : List RecvEvent) :
    deliveredOf (a ++ b) = deliveredOf a ++ deliveredOf b := by
  induction a with
  | nil => rfl
  | cons e rest ih => cases e <;> simp [deliveredOf, ih]

/-- Conservation: across one `_read` call, the bytes the transport holds
afterwards (result still owed to the caller, then buffer) are exactly the
old buffer followed by everything the socket delivered during the call;
the remaining events are a suffix of the input events. -/
theorem sslRead_conserve (rie init : Bool) (n : Int) :
    ∀ (events : List RecvEvent) (rbuf : List Nat),
      ∃ C, events = C ++ (sslRead rie init n events rbuf).rem ∧
        outBytes (sslRead rie init n events rbuf) =
          rbuf ++ deliveredOf C := by
  intro events
  induction events with
  | nil =>
    intro rbuf
    by_cases hlt : (rbuf.length : Int) < n
    · rw [sslRead_nil _ _ _ _ hlt]
      exact ⟨[], by simp, by simp [outBytes, deliveredOf]⟩
    · rw [sslRead_of_le _ _ _ _ _ (not_lt.mp hlt)]
      exact ⟨[], by simp, by simp [outBytes, deliveredOf, pySlice_join]⟩
  | cons ev rest ih =>
    intro rbuf
    by_cases hlt : (rbuf.length : Int) < n
    · match ev with
      | .data s =>
        cases hs : s.isEmpty with
        | true =>
          rw [List.isEmpty_iff.mp hs, sslRead_data_eof _ _ _ _ _ hlt]
          exact ⟨[.data []], by simp, by simp [outBytes, deliveredOf]⟩
        | false =>
          rw [sslRead_data_cons _ _ _ _ _ _ hlt hs]
          obtain ⟨C, hC, hB⟩ := ih (rbuf ++ s)
          exact ⟨.data s :: C, by rw [List.cons_append, ← hC],
            by rw [hB]; simp [deliveredOf]⟩
      | .exn .timeout =>
        rw [sslRead_exn_timeout _ _ _ _ _ hlt]
        exact ⟨[.exn .timeout], by simp, by simp [outBytes, deliveredOf]⟩
      | .exn .sslTimedOut =>
        rw [sslRead_exn_ssltimeout _ _ _ _ _ hlt]
        exact ⟨[.exn .sslTimedOut], by simp, by simp [outBytes, deliveredOf]⟩
      | .exn (.oserror none) =>
        rw [sslRead_exn_none _ _ _ _ _ hlt]
        exact ⟨[.exn (.oserror none)], by simp, by simp [outBytes, deliveredOf]⟩
      | .exn (.oserror (some v)) =>
        rw [sslRead_exn_some _ _ _ _ _ _ hlt]
        by_cases hv : v ∈ sslErrnos
        · rw [if_pos hv]
          by_cases hir : (init && rie) = true
          · rw [if_pos hir]
            exact ⟨[.exn (.oserror (some v))], by simp,
              by simp [outBytes, deliveredOf]⟩
          · rw [if_neg hir]
            obtain ⟨C, hC, hB⟩ := ih rbuf
            exact ⟨.exn (.oserror (some v)) :: C, by rw [List.cons_append, ← hC],
              by rw [hB]; simp [deliveredOf]⟩
        · rw [if_neg hv]
          exact ⟨[.exn (.oserror (some v))], by simp,
            by simp [outBytes, deliveredOf]⟩
    · rw [sslRead_of_le _ _ _ _ _ (not_lt.mp hlt)]
      exact ⟨[], by simp, by simp [outBytes, deliveredOf, pySlice_join]⟩

theorem sslRead_conserve_ok (rie init : Bool) (n : Int)
    (events : List RecvEvent) (rbuf r buf : List Nat) (rem : List RecvEvent)
    (h : sslRead rie init n events rbuf = ⟨.ok r, buf, rem⟩) :
    ∃ C, events = C ++ rem ∧ r ++ buf = rbuf ++ deliveredOf C := by
  obtain ⟨C, hC, hB⟩ := sslRead_conserve rie init n events rbuf
  rw [h] at hC hB
  exact ⟨C, hC, hB⟩

theorem sslRead_conserve_err (rie init : Bool) (n : Int)
    (events : List RecvEvent) (rbuf : List Nat) (e : Exc) (buf : List Nat)
    (rem : List RecvEvent)
    (h : sslRead rie init n events rbuf = ⟨.error e, buf, rem⟩) :
    ∃ C, events = C ++ rem ∧ buf = rbuf ++ deliveredOf C := by
  obtain ⟨C, hC, hB⟩ := sslRead_conserve rie init n events rbuf
  rw [h] at hC hB
  exact ⟨C, hC, hB⟩

theorem handleReadExc_ne_ok (st : TState) (e : Exc)
    (rfb curBuf : List Nat) (rem : List RecvEvent) (res : FrameRes)
    (st' : TState) (rem' : List RecvEvent)
    (h : handleReadExc st e rfb curBuf rem = (.ok res, st', rem')) : False := by
  cases e with
  | timeout => simp [handleReadExc] at h
  | connClosed => simp [handleReadExc] at h
  | valueErr => simp [handleReadExc] at h
  | oserr eo =>
    simp only [handleReadExc] at h
    split at h <;> simp at h

theorem handleReadExc_timeout_eq (st : TState) (e : Exc)
    (rfb curBuf : List Nat) (rem : List RecvEvent) (st' : TState)
    (rem' : List RecvEvent)
    (h : handleReadExc st e rfb curBuf rem = (.error .timeout, st', rem')) :
    st' = { st with read_buffer := rfb ++ curBuf } ∧ rem' = rem := by
  cases e with
  | timeout =>
    simp only [handleReadExc, Prod.mk.injEq] at h
    exact ⟨h.2.1.symm, h.2.2.symm⟩
  | connClosed => simp [handleReadExc] at h
  | valueErr => simp [handleReadExc] at h
  | oserr eo =>
    simp only [handleReadExc] at h
    split at h <;> simp at h

theorem unpack_frame_header_error (data : List Nat) (e : Exc)
    (h : unpack_frame_header data = .error e) : e = .valueErr := by
  unfold unpack_frame_header at h
  split at h
  · simpa using h.symm
  · simp at h

/-- Conservation for successful framed reads: the returned header and
payload followed by the final pending buffer are exactly the old pending
buffer followed by everything the socket delivered during the call. -/
theorem transport_read_ok_conserve (st : TState) (events : List RecvEvent)
    (vt : Option Nat) (hdr : List Nat) (ch : Nat) (pl : List Nat) (off : Nat)
    (st'' : TState) (rem : List RecvEvent)
    (h : transport_read st events vt = (.ok (hdr, ch, some pl, off), st'', rem)) :
    ∃ C, events = C ++ rem ∧
      hdr ++ pl ++ st''.read_buffer = st.read_buffer ++ deliveredOf C := by
  unfold transport_read at h
  split at h
  next e buf1 rem1 heq1 =>
    exact (handleReadExc_ne_ok _ _ _ _ _ _ _ _ h).elim
  next frame_header buf1 rem1 heq1 =>
    split at h
    next e hu => simp at h
    next size offset frame_type channel hu =>
      split at h
      next hf => simp at h
      next hf =>
        split at h
        next hv => simp at h
        next hv =>
          split at h
          next hbig =>
            split at h
            next e buf2 rem2 heq2 =>
              exact (handleReadExc_ne_ok _ _ _ _ _ _ _ _ h).elim
            next p1 buf2 rem2 heq2 =>
              split at h
              next e buf3 rem3 heq3 =>
                exact (handleReadExc_ne_ok _ _ _ _ _ _ _ _ h).elim
              next p2 buf3 rem3 heq3 =>
                simp only [Prod.mk.injEq, Except.ok.injEq,
                  Option.some.injEq] at h
                obtain ⟨⟨h1, h2, h3, h4⟩, h5, h6⟩ := h
                obtain ⟨C1, hC1, hB1⟩ :=
                  sslRead_conserve_ok _ _ _ _ _ _ _ _ heq1
                obtain ⟨C2, hC2, hB2⟩ :=
                  sslRead_conserve_ok _ _ _ _ _ _ _ _ heq2
                obtain ⟨C3, hC3, hB3⟩ :=
                  sslRead_conserve_ok _ _ _ _ _ _ _ _ heq3
                refine ⟨C1 ++ (C2 ++ C3), ?_, ?_⟩
                · rw [← h6, hC1, hC2, hC3]
                  simp [List.append_assoc]
                · rw [← h1, ← h3, ← h5]
                  show frame_header ++ (p1 ++ p2) ++ buf3 = _
                  calc frame_header ++ (p1 ++ p2) ++ buf3
                      = frame_header ++ (p1 ++ (p2 ++ buf3)) := by
                        simp [List.append_assoc]
                    _ = frame_header ++ (p1 ++ (buf2 ++ deliveredOf C3)) := by
                        rw [hB3]
                    _ = frame_header ++ ((p1 ++ buf2) ++ deliveredOf C3) := by
                        simp [List.append_assoc]
                    _ = frame_header ++
                          ((buf1 ++ deliveredOf C2) ++ deliveredOf C3) := by
                        rw [hB2]
                    _ = (frame_header ++ buf1) ++
                          (deliveredOf C2 ++ deliveredOf C3) := by
                        simp [List.append_assoc]
                    _ = (st.read_buffer ++ deliveredOf C1) ++
                          (deliveredOf C2 ++ deliveredOf C3) := by
                        rw [hB1]
                    _ = st.read_buffer ++ deliveredOf (C1 ++ (C2 ++ C3)) := by
                        simp [deliveredOf_append, List.append_assoc]
          next hbig =>
            split at h
            next e buf2 rem2 heq2 =>
              exact (handleReadExc_ne_ok _ _ _ _ _ _ _ _ h).elim
            next payload buf2 rem2 heq2 =>
              simp only [Prod.mk.injEq, Except.ok.injEq,
                Option.some.injEq] at h
              obtain ⟨⟨h1, h2, h3, h4⟩, h5, h6⟩ := h
              obtain ⟨C1, hC1, hB1⟩ :=
                sslRead_conserve_ok _ _ _ _ _ _ _ _ heq1
              obtain ⟨C2, hC2, hB2⟩ :=
                sslRead_conserve_ok _ _ _ _ _ _ _ _ heq2
              refine ⟨C1 ++ C2, ?_, ?_⟩
              · rw [← h6, hC1, hC2]
                simp [List.append_assoc]
              · rw [← h1, ← h3, ← h5]
                show frame_header ++ payload ++ buf2 = _
                calc frame_header ++ payload ++ buf2
                    = frame_header ++ (payload ++ buf2) := by
                      simp [List.append_assoc]
                  _ = frame_header ++ (buf1 ++ deliveredOf C2) := by rw [hB2]
                  _ = (frame_header ++ buf1) ++ deliveredOf C2 := by
                      simp [List.append_assoc]
                  _ = (st.read_buffer ++ deliveredOf C1) ++ deliveredOf C2 := by
                      rw [hB1]
                  _ = st.read_buffer ++ deliveredOf (C1 ++ C2) := by
                      simp [deliveredOf_append, List.append_assoc]

/-- Preservation on timeout, for non-oversized frames: after a
`socket.timeout` inside a framed read, the pending buffer holds the old
pending bytes followed by everything the socket delivered during the
call, and the `connected` flag is untouched. -/
theorem transport_read_timeout_conserve (st : TState)
    (events : List RecvEvent) (vt : Option Nat) (st' : TState)
    (rem : List RecvEvent)
    (hsmall : smallFrameOk st events = true)
    (h : transport_read st events vt = (.error .timeout, st', rem)) :
    st'.connected = st.connected ∧
      ∃ C, events = C ++ rem ∧
        st'.read_buffer = st.read_buffer ++ deliveredOf C := by
  unfold transport_read at h
  split at h
  next e buf1 rem1 heq1 =>
    obtain ⟨hst, hrem⟩ := handleReadExc_timeout_eq _ _ _ _ _ _ _ h
    subst hst
    obtain ⟨C1, hC1, hB1⟩ := sslRead_conserve_err _ _ _ _ _ _ _ _ heq1
    exact ⟨rfl, C1, by rw [hrem]; exact hC1, by simpa using hB1⟩
  next frame_header buf1 rem1 heq1 =>
    split at h
    next e hu =>
      have he := unpack_frame_header_error _ _ hu
      subst he
      simp at h
    next size offset frame_type channel hu =>
      split at h
      next hf => simp at h
      next hf =>
        split at h
        next hv => simp at h
        next hv =>
          split at h
          next hbig =>
            split at h
            next e buf2 rem2 heq2 =>
              obtain ⟨hst, hrem⟩ := handleReadExc_timeout_eq _ _ _ _ _ _ _ h
              subst hst
              obtain ⟨C1, hC1, hB1⟩ :=
                sslRead_conserve_ok _ _ _ _ _ _ _ _ heq1
              obtain ⟨C2, hC2, hB2⟩ :=
                sslRead_conserve_err _ _ _ _ _ _ _ _ heq2
              refine ⟨rfl, C1 ++ C2, ?_, ?_⟩
              · rw [hrem, hC1, hC2]
                simp [List.append_assoc]
              · show frame_header ++ buf2 = _
                calc frame_header ++ buf2
                    = frame_header ++ (buf1 ++ deliveredOf C2) := by rw [hB2]
                  _ = (frame_header ++ buf1) ++ deliveredOf C2 := by
                      simp [List.append_assoc]
                  _ = (st.read_buffer ++ deliveredOf C1) ++ deliveredOf C2 := by
                      rw [hB1]
                  _ = st.read_buffer ++ deliveredOf (C1 ++ C2) := by
                      simp [deliveredOf_append, List.append_assoc]
            next p1 buf2 rem2 heq2 =>
              split at h
              next e buf3 rem3 heq3 =>
                exfalso
                obtain ⟨C1, hC1, hB1⟩ :=
                  sslRead_conserve_ok _ _ _ _ _ _ _ _ heq1
                have hlen : frame_header.length = 8 := by
                  have := sslRead_ok_length st.raise_on_initial_eintr true 8
                    (by norm_num) events st.read_buffer _ _ _ heq1
                  simpa using this
                cases size with
                | none => simp [sizeFalsy] at hf
                | some s =>
                  have hstream : (streamOf st events).take 8 = frame_header := by
                    unfold streamOf
                    rw [hC1, deliveredOf_append, ← List.append_assoc, ← hB1,
                      List.append_assoc]
                    exact List.take_left' hlen
                  have hcomp : smallFrameOk st events =
                      decide (s ≤ SIGNED_INT_MAX) := by
                    unfold smallFrameOk
                    rw [hstream, hu]
                  rw [hcomp] at hsmall
                  have hle : s ≤ SIGNED_INT_MAX := of_decide_eq_true hsmall
                  simp only [Option.getD_some] at hbig
                  omega
              next p2 buf3 rem3 heq3 => simp at h
          next hbig =>
            split at h
            next e buf2 rem2 heq2 =>
              obtain ⟨hst, hrem⟩ := handleReadExc_timeout_eq _ _ _ _ _ _ _ h
              subst hst
              obtain ⟨C1, hC1, hB1⟩ :=
                sslRead_conserve_ok _ _ _ _ _ _ _ _ heq1
              obtain ⟨C2, hC2, hB2⟩ :=
                sslRead_conserve_err _ _ _ _ _ _ _ _ heq2
              refine ⟨rfl, C1 ++ C2, ?_, ?_⟩
              · rw [hrem, hC1, hC2]
                simp [List.append_assoc]
              · show frame_header ++ buf2 = _
                calc frame_header ++ buf2
                    = frame_header ++ (buf1 ++ deliveredOf C2) := by rw [hB2]
                  _ = (frame_header ++ buf1) ++ deliveredOf C2 := by
                      simp [List.append_assoc]
                  _ = (st.read_buffer ++ deliveredOf C1) ++ deliveredOf C2 := by
                      rw [hB1]
                  _ = st.read_buffer ++ deliveredOf (C1 ++ C2) := by
                      simp [deliveredOf_append, List.append_assoc]
            next payload buf2 rem2 heq2 => simp at h

theorem bigHeader_len : bigHeader.length = 8 := rfl

theorem bigState_buf_take :
    pySliceTo bigState.read_buffer 8 = bigHeader := by
  rw [pySliceTo_nonneg _ _ (by norm_num)]
  show List.take 8 (bigHeader ++ List.replicate (2 ^ 31) 55) = bigHeader
  exact List.take_left' bigHeader_len

theorem bigState_buf_drop :
    pySliceFrom bigState.read_buffer 8 = List.replicate (2 ^ 31) 55 := by
  rw [pySliceFrom_nonneg _ _ (by norm_num)]
  show List.drop 8 (bigHeader ++ List.replicate (2 ^ 31) 55) =
    List.replicate (2 ^ 31) 55
  exact List.drop_left' bigHeader_len

theorem bigState_buf :
    bigState.read_buffer = bigHeader ++ List.replicate (2 ^ 31) 55 := rfl

theorem bigState_read1 :
    sslRead bigState.raise_on_initial_eintr true 8 [] bigState.read_buffer =
      ⟨.ok bigHeader, List.replicate (2 ^ 31) 55, []⟩ := by
  rw [sslRead_of_le _ _ _ _ _ (by
    rw [bigState_buf, List.length_append, List.length_replicate, bigHeader_len]
    norm_num)]
  rw [bigState_buf_take, bigState_buf_drop]

theorem bigHeader_unpack :
    unpack_frame_header bigHeader = .ok (some 2147483648, 2, 0, 0) := by
  set_option maxRecDepth 4096 in decide

theorem rep31_take :
    pySliceTo (List.replicate (2 ^ 31) 55) (SIGNED_INT_MAX : Int) =
      List.replicate SIGNED_INT_MAX 55 := by
  rw [pySliceTo_nonneg _ _ (Int.natCast_nonneg _), List.take_replicate]
  congr 1

theorem rep31_drop :
    pySliceFrom (List.replicate (2 ^ 31) 55) (SIGNED_INT_MAX : Int) =
      List.replicate 1 55 := by
  rw [pySliceFrom_nonneg _ _ (Int.natCast_nonneg _), List.drop_replicate]
  congr 1

theorem rep31_read2 :
    sslRead bigState.raise_on_initial_eintr false (SIGNED_INT_MAX : Int) []
      (List.replicate (2 ^ 31) 55) =
      ⟨.ok (List.replicate SIGNED_INT_MAX 55), List.replicate 1 55, []⟩ := by
  rw [sslRead_of_le _ _ _ _ _ (by
    rw [List.length_replicate]
    norm_num [SIGNED_INT_MAX])]
  rw [rep31_take, rep31_drop]

theorem rep1_read3 :
    sslRead bigState.raise_on_initial_eintr false
      (((2147483648 : Nat) : Int) - (SIGNED_INT_MAX : Int)) []
      (List.replicate 1 55) =
      ⟨.ok (List.replicate 1 55), [], []⟩ := by
  decide

/-- C1 (code bug): a framed read of a frame whose parsed size `s = 2^31`
exceeds `SIGNED_INT_MAX` performs its two payload reads with byte counts
`SIGNED_INT_MAX` and `s - SIGNED_INT_MAX`, which sum to `s` — not to
`s - 8` as the small-size branch (`read(size - len(frame_header))`) and
the specification require.  Concretely, with the whole oversized frame
already pending in the buffer, `read` succeeds and returns a payload of
`2^31` bytes instead of `2^31 - 8`. -/
theorem read_oversized_frame_overreads :
    (transport_read bigState [] (some 0)).1 =
      .ok (bigHeader, 0,
        some (List.replicate SIGNED_INT_MAX 55 ++ List.replicate 1 55), 2) ∧
    (List.replicate SIGNED_INT_MAX 55 ++ List.replicate 1 55).length =
      2 ^ 31 ∧
    (2 ^ 31 : Nat) ≠ 2 ^ 31 - 8 := by
  refine ⟨?_, ?_, by norm_num⟩
  · rw [transport_read.eq_def]
    rw [bigState_read1]
    dsimp only
    rw [bigHeader_unpack]
    dsimp only
    rw [if_neg (by decide), if_neg (by decide), if_pos (by decide)]
    rw [rep31_read2]
    dsimp only
    simp only [Option.getD_some]
    rw [rep1_read3]
  · rw [List.length_append, List.length_replicate, List.length_replicate]
    norm_num [SIGNED_INT_MAX]

theorem bigStatePart_buf :
    bigStatePart.read_buffer = bigHeader ++ List.replicate (2 ^ 31 - 1) 55 :=
  rfl

theorem bigStatePart_buf_take :
    pySliceTo bigStatePart.read_buffer 8 = bigHeader := by
  rw [pySliceTo_nonneg _ _ (by norm_num)]
  show List.take 8 (bigHeader ++ List.replicate (2 ^ 31 - 1) 55) = bigHeader
  exact List.take_left' bigHeader_len

theorem bigStatePart_buf_drop :
    pySliceFrom bigStatePart.read_buffer 8 =
      List.replicate (2 ^ 31 - 1) 55 := by
  rw [pySliceFrom_nonneg _ _ (by norm_num)]
  show List.drop 8 (bigHeader ++ List.replicate (2 ^ 31 - 1) 55) =
    List.replicate (2 ^ 31 - 1) 55
  exact List.drop_left' bigHeader_len

theorem bigStatePart_read1 :
    sslRead bigStatePart.raise_on_initial_eintr true 8 [.exn .timeout]
      bigStatePart.read_buffer =
      ⟨.ok bigHeader, List.replicate (2 ^ 31 - 1) 55, [.exn .timeout]⟩ := by
  rw [sslRead_of_le _ _ _ _ _ (by
    rw [bigStatePart_buf, List.length_append, List.length_replicate,
      bigHeader_len]
    norm_num)]
  rw [bigStatePart_buf_take, bigStatePart_buf_drop]

theorem repPart_take :
    pySliceTo (List.replicate (2 ^ 31 - 1) 55) (SIGNED_INT_MAX : Int) =
      List.replicate SIGNED_INT_MAX 55 := by
  rw [pySliceTo_nonneg _ _ (Int.natCast_nonneg _), List.take_replicate]
  congr 1

theorem repPart_drop :
    pySliceFrom (List.replicate (2 ^ 31 - 1) 55) (SIGNED_INT_MAX : Int) =
      [] := by
  rw [pySliceFrom_nonneg _ _ (Int.natCast_nonneg _), List.drop_replicate]
  have h0 : 2 ^ 31 - 1 - ((SIGNED_INT_MAX : Nat) : Int).toNat = 0 := by
    rw [Int.toNat_natCast]
    norm_num [SIGNED_INT_MAX]
  rw [h0, List.replicate_zero]

theorem bigStatePart_read2 :
    sslRead bigStatePart.raise_on_initial_eintr false (SIGNED_INT_MAX : Int)
      [.exn .timeout] (List.replicate (2 ^ 31 - 1) 55) =
      ⟨.ok (List.replicate SIGNED_INT_MAX 55), [], [.exn .timeout]⟩ := by
  rw [sslRead_of_le _ _ _ _ _ (by
    rw [List.length_replicate]
    norm_num [SIGNED_INT_MAX])]
  rw [repPart_take, repPart_drop]

theorem bigStatePart_read3 :
    sslRead bigStatePart.raise_on_initial_eintr false
      (((2147483648 : Nat) : Int) - (SIGNED_INT_MAX : Int)) [.exn .timeout]
      [] =
      ⟨.error .timeout, [], []⟩ := by
  decide

/-- C2 (counterexample): in the oversized-size branch, a timeout during
the second split read loses the bytes already consumed by the first
split read.  With the whole header plus `SIGNED_INT_MAX` payload bytes
already pending (`8 + (2^31 - 1)` bytes) and a socket that then times
out, `read` raises the timeout but the preserved pending buffer is only
the 8 header bytes: the `SIGNED_INT_MAX` payload bytes held in the local
`payload` variable are dropped, so a subsequent read cannot observe
them; the claimed preservation fails. -/
theorem read_big_timeout_loses_bytes :
    transport_read bigStatePart [.exn .timeout] (some 0) =
      (.error .timeout,
        { connected := true, read_buffer := bigHeader,
          raise_on_initial_eintr := true }, []) ∧
    bigStatePart.read_buffer.length = 8 + (2 ^ 31 - 1) ∧
    bigHeader.length = 8 := by
  refine ⟨?_, ?_, bigHeader_len⟩
  · rw [transport_read.eq_def]
    rw [bigStatePart_read1]
    dsimp only
    rw [bigHeader_unpack]
    dsimp only
    rw [if_neg (by decide), if_neg (by decide), if_pos (by decide)]
    rw [bigStatePart_read2]
    dsimp only
    simp only [Option.getD_some]
    rw [bigStatePart_read3]
    dsimp only [handleReadExc]
    rw [List.append_nil]
    rfl
  · rw [bigStatePart_buf, List.length_append, List.length_replicate,
      bigHeader_len]

/-- C4: for every 8-byte input, an `AMQP`-prefixed header parses to a
header-frame variant with `size = None` and otherwise `size` is the
big-endian u32 of bytes 0-3; in both cases the data-offset is byte 4,
the frame type is byte 5, and the channel is the big-endian u16 of
bytes 6-7; an input whose length is not 8 is rejected with a
`ValueError`. -/
theorem unpack_frame_header_spec (data : List Nat) :
    (data.length ≠ 8 → unpack_frame_header data = .error .valueErr) ∧
    (data.length = 8 →
      unpack_frame_header data =
        .ok
          ((if data.take 4 = [0x41, 0x4D, 0x51, 0x50] then none
            else some (data.getD 0 0 * 2 ^ 24 + data.getD 1 0 * 2 ^ 16 +
              data.getD 2 0 * 2 ^ 8 + data.getD 3 0)),
            data.getD 4 0, data.getD 5 0,
            data.getD 6 0 * 2 ^ 8 + data.getD 7 0)) := by
  constructor
  · intro hne
    simp only [unpack_frame_header]
    rw [if_pos hne]
  · intro h8
    simp only [unpack_frame_header]
    rw [if_neg (by simp [h8])]
    by_cases hc : data.take 4 = [0x41, 0x4D, 0x51, 0x50]
    · rw [if_pos hc, if_pos hc]
      norm_num
    · rw [if_neg hc, if_neg hc]
      simp only [Except.ok.injEq, Prod.mk.injEq, Option.some.injEq]
      refine ⟨by ring, trivial, trivial, by norm_num⟩

/-- Witness for C4 at three concrete inputs: an `AMQP` negotiation
header, an ordinary frame header, and an input of the wrong length. -/
theorem unpack_frame_header_spec_witness :
    unpack_frame_header [0x41, 0x4D, 0x51, 0x50, 0, 1, 0, 0] =
      .ok (none, 0, 1, 0) ∧
    unpack_frame_header [0, 0, 1, 0, 2, 0, 1, 4] =
      .ok (some 256, 2, 0, 260) ∧
    unpack_frame_header [1, 2, 3] = .error .valueErr := by
  refine ⟨?_, ?_, ?_⟩
  · exact ((unpack_frame_header_spec
      [0x41, 0x4D, 0x51, 0x50, 0, 1, 0, 0]).2 (by decide)).trans (by decide)
  · exact ((unpack_frame_header_spec
      [0, 0, 1, 0, 2, 0, 1, 4]).2 (by decide)).trans (by decide)
  · exact (unpack_frame_header_spec [1, 2, 3]).1 (by decide)

/-- C2 (amended): for frames whose parsed size does not exceed
`SIGNED_INT_MAX` (every well-formed AMQP frame; the oversized branch is
excluded by the counterexample), a timeout during a framed read leaves
the `connected` flag untouched, preserves in the pending buffer exactly
the old pending bytes followed by every byte the socket delivered
during the call (the bytes already read are prepended to the remaining
buffer, reconstituting the stream in order), and a subsequent
successful read observes exactly the concatenation of those preserved
bytes with newly arriving bytes: header, payload and leftover buffer
together are that concatenation, with no byte lost or duplicated. -/
theorem read_timeout_preserves_stream (st : TState)
    (ev ev2 : List RecvEvent) (vt vt2 : Option Nat) (st' st'' : TState)
    (rem rem2 : List RecvEvent) (hdr : List Nat) (ch : Nat) (pl : List Nat)
    (off : Nat)
    (hsmall : smallFrameOk st ev = true)
    (h1 : transport_read st ev vt = (.error .timeout, st', rem))
    (h2 : transport_read st' ev2 vt2 =
      (.ok (hdr, ch, some pl, off), st'', rem2)) :
    st'.connected = st.connected ∧
    (∃ C, ev = C ++ rem ∧
      st'.read_buffer = st.read_buffer ++ deliveredOf C) ∧
    (∃ C2, ev2 = C2 ++ rem2 ∧
      hdr ++ pl ++ st''.read_buffer = st'.read_buffer ++ deliveredOf C2) := by
  obtain ⟨hc, hC⟩ := transport_read_timeout_conserve st ev vt st' rem hsmall h1
  exact ⟨hc, hC,
    transport_read_ok_conserve st' ev2 vt2 hdr ch pl off st'' rem2 h2⟩

/-- Witness for C2 (amended): a 12-byte frame whose payload read times
out after the header was consumed; the next read sees the full frame. -/
theorem read_timeout_preserves_stream_witness :
    ((⟨true, [0, 0, 0, 12, 2, 0, 0, 1], true⟩ : TState).connected =
      (⟨true, [], true⟩ : TState).connected) ∧
    (∃ C, [RecvEvent.data [0, 0, 0, 12, 2, 0, 0, 1],
        RecvEvent.exn .timeout] = C ++ [] ∧
      (⟨true, [0, 0, 0, 12, 2, 0, 0, 1], true⟩ : TState).read_buffer =
        (⟨true, [], true⟩ : TState).read_buffer ++ deliveredOf C) ∧
    (∃ C2, [RecvEvent.data [9, 9, 9, 9]] = C2 ++ [] ∧
      [0, 0, 0, 12, 2, 0, 0, 1] ++ [9, 9, 9, 9] ++
        (⟨true, [], true⟩ : TState).read_buffer =
        (⟨true, [0, 0, 0, 12, 2, 0, 0, 1], true⟩ : TState).read_buffer ++
          deliveredOf C2) :=
  read_timeout_preserves_stream ⟨true, [], true⟩
    [.data [0, 0, 0, 12, 2, 0, 0, 1], .exn .timeout] [.data [9, 9, 9, 9]]
    (some 0) (some 0) ⟨true, [0, 0, 0, 12, 2, 0, 0, 1], true⟩
    ⟨true, [], true⟩ [] [] [0, 0, 0, 12, 2, 0, 0, 1] 1 [9, 9, 9, 9] 2
    (by decide) (by decide) (by decide)

/-- C3 (counterexample): a non-timeout I/O error does not always mark
the transport disconnected, and no subsequent-call short-circuit
exists.  An `OSError` with errno `EINTR` raised by `sock.send` during a
framed write propagates to the caller while `connected` stays `true`
(its errno is in `_UNAVAIL`); and a framed read on a transport whose
`connected` flag is already `false` is not short-circuited to a
connection-closed error — it performs the socket I/O and succeeds. -/
theorem write_eintr_keeps_connected :
    transport_write ⟨true, [], true⟩ [.exn (.oserror (some EINTR))]
      [1, 2, 3] =
      (.error (.oserr (some EINTR)), ⟨true, [], true⟩, []) ∧
    transport_read ⟨false, [0, 0, 0, 12, 2, 0, 0, 1, 9, 9, 9, 9], true⟩ []
      (some 0) =
      (.ok ([0, 0, 0, 12, 2, 0, 0, 1], 1, some [9, 9, 9, 9], 2),
        ⟨false, [], true⟩, []) := by
  exact ⟨by decide, by decide⟩

theorem handleReadExc_oserr_eq (st : TState) (e : Exc)
    (rfb curBuf : List Nat) (rem : List RecvEvent) (eo : Option Nat)
    (st' : TState) (rem' : List RecvEvent)
    (h : handleReadExc st e rfb curBuf rem = (.error (.oserr eo), st', rem')) :
    st'.connected = (st.connected && unavailMem eo) := by
  cases e with
  | timeout => simp [handleReadExc] at h
  | connClosed => simp [handleReadExc] at h
  | valueErr => simp [handleReadExc] at h
  | oserr eo2 =>
    simp only [handleReadExc] at h
    split at h
    next hu =>
      simp only [Prod.mk.injEq, Except.error.injEq, Exc.oserr.injEq] at h
      obtain ⟨rfl, h2, -⟩ := h
      rw [← h2]
      simp [hu]
    next hu =>
      simp only [Prod.mk.injEq, Except.error.injEq, Exc.oserr.injEq] at h
      obtain ⟨rfl, h2, -⟩ := h
      rw [← h2]
      simp only [Bool.not_eq_true] at hu
      simp [hu]

theorem handleReadExc_connClosed_eq (st : TState) (e : Exc)
    (rfb curBuf : List Nat) (rem : List RecvEvent)
    (st' : TState) (rem' : List RecvEvent)
    (h : handleReadExc st e rfb curBuf rem = (.error .connClosed, st', rem')) :
    st'.connected = false := by
  cases e with
  | timeout => simp [handleReadExc] at h
  | valueErr => simp [handleReadExc] at h
  | oserr eo =>
    simp only [handleReadExc] at h
    split at h <;> simp at h
  | connClosed =>
    simp only [handleReadExc, Prod.mk.injEq] at h
    obtain ⟨-, h2, -⟩ := h
    rw [← h2]

theorem transport_read_oserr_connected (st : TState) (ev : List RecvEvent)
    (vt : Option Nat) (eo : Option Nat) (st' : TState)
    (rem : List RecvEvent)
    (h : transport_read st ev vt = (.error (.oserr eo), st', rem)) :
    st'.connected = (st.connected && unavailMem eo) := by
  unfold transport_read at h
  split at h
  next e buf1 rem1 heq1 => exact handleReadExc_oserr_eq _ _ _ _ _ _ _ _ h
  next fh buf1 rem1 heq1 =>
    split at h
    next e hu =>
      have he := unpack_frame_header_error _ _ hu
      subst he
      simp at h
    next size offset ft ch hu =>
      split at h
      next hf => simp at h
      next hf =>
        split at h
        next hv => simp at h
        next hv =>
          split at h
          next hbig =>
            split at h
            next e buf2 rem2 heq2 =>
              exact handleReadExc_oserr_eq _ _ _ _ _ _ _ _ h
            next p1 buf2 rem2 heq2 =>
              split at h
              next e buf3 rem3 heq3 =>
                exact handleReadExc_oserr_eq _ _ _ _ _ _ _ _ h
              next p2 buf3 rem3 heq3 => simp at h
          next hbig =>
            split at h
            next e buf2 rem2 heq2 =>
              exact handleReadExc_oserr_eq _ _ _ _ _ _ _ _ h
            next payload buf2 rem2 heq2 => simp at h

theorem transport_read_connClosed_connected (st : TState)
    (ev : List RecvEvent) (vt : Option Nat) (st' : TState)
    (rem : List RecvEvent)
    (h : transport_read st ev vt = (.error .connClosed, st', rem)) :
    st'.connected = false := by
  unfold transport_read at h
  split at h
  next e buf1 rem1 heq1 => exact handleReadExc_connClosed_eq _ _ _ _ _ _ _ h
  next fh buf1 rem1 heq1 =>
    split at h
    next e hu =>
      have he := unpack_frame_header_error _ _ hu
      subst he
      simp at h
    next size offset ft ch hu =>
      split at h
      next hf => simp at h
      next hf =>
        split at h
        next hv => simp at h
        next hv =>
          split at h
          next hbig =>
            split at h
            next e buf2 rem2 heq2 =>
              exact handleReadExc_connClosed_eq _ _ _ _ _ _ _ h
            next p1 buf2 rem2 heq2 =>
              split at h
              next e buf3 rem3 heq3 =>
                exact handleReadExc_connClosed_eq _ _ _ _ _ _ _ h
              next p2 buf3 rem3 heq3 => simp at h
          next hbig =>
            split at h
            next e buf2 rem2 heq2 =>
              exact handleReadExc_connClosed_eq _ _ _ _ _ _ _ h
            next payload buf2 rem2 heq2 => simp at h

theorem transport_write_oserr_connected (st : TState)
    (ev : List SendEvent) (s : List Nat) (eo : Option Nat) (st' : TState)
    (rem : List SendEvent)
    (h : transport_write st ev s = (.error (.oserr eo), st', rem)) :
    st'.connected = (st.connected && unavailMem eo) := by
  unfold transport_write at h
  split at h
  next rem0 heq => simp at h
  next e rem0 heq =>
    cases e with
    | timeout => simp at h
    | valueErr => simp at h
    | connClosed => simp at h
    | oserr eo2 =>
      dsimp only at h
      split at h
      next hu =>
        simp only [Prod.mk.injEq, Except.error.injEq, Exc.oserr.injEq] at h
        obtain ⟨rfl, h2, -⟩ := h
        rw [← h2]
        simp [hu]
      next hu =>
        simp only [Prod.mk.injEq, Except.error.injEq, Exc.oserr.injEq] at h
        obtain ⟨rfl, h2, -⟩ := h
        rw [← h2]
        simp only [Bool.not_eq_true] at hu
        simp [hu]

theorem transport_write_connClosed_connected (st : TState)
    (ev : List SendEvent) (s : List Nat) (st' : TState)
    (rem : List SendEvent)
    (h : transport_write st ev s = (.error .connClosed, st', rem)) :
    st'.connected = false := by
  unfold transport_write at h
  split at h
  next rem0 heq => simp at h
  next e rem0 heq =>
    cases e with
    | timeout => simp at h
    | valueErr => simp at h
    | oserr eo2 =>
      dsimp only at h
      split at h <;> simp at h
    | connClosed =>
      dsimp only at h
      simp only [Prod.mk.injEq] at h
      obtain ⟨-, h2, -⟩ := h
      rw [← h2]

theorem handleReadExc_fst (stA stB : TState) (e : Exc)
    (rfb curBuf : List Nat) (rem : List RecvEvent) :
    (handleReadExc stA e rfb curBuf rem).1 =
      (handleReadExc stB e rfb curBuf rem).1 := by
  cases e with
  | timeout => rfl
  | connClosed => rfl
  | valueErr => rfl
  | oserr eo =>
    simp only [handleReadExc]
    split <;> rfl

/-- The outcome of a framed read never consults the `connected` flag:
there is no short-circuit for a disconnected transport. -/
theorem transport_read_fst_connected_irrel (c1 c2 : Bool)
    (rb : List Nat) (rie : Bool) (ev : List RecvEvent) (vt : Option Nat) :
    (transport_read ⟨c1, rb, rie⟩ ev vt).1 =
      (transport_read ⟨c2, rb, rie⟩ ev vt).1 := by
  unfold transport_read
  dsimp only
  cases hr1 : sslRead rie true 8 ev rb with
  | mk out1 buf1 rem1 =>
  cases out1 with
  | error e => exact handleReadExc_fst _ _ _ _ _ _
  | ok fh =>
    dsimp only
    cases hu : unpack_frame_header fh with
    | error e => rfl
    | ok quad =>
      obtain ⟨size, offset, ft, ch⟩ := quad
      dsimp only
      split
      next hf => rfl
      next hf =>
        split
        next hv => rfl
        next hv =>
          split
          next hbig =>
            cases hr2 : sslRead rie false (SIGNED_INT_MAX : Int) rem1 buf1 with
            | mk out2 buf2 rem2 =>
            cases out2 with
            | error e => exact handleReadExc_fst _ _ _ _ _ _
            | ok p1 =>
              dsimp only
              cases hr3 : sslRead rie false
                  ((size.getD 0 : Int) - (SIGNED_INT_MAX : Int)) rem2 buf2 with
              | mk out3 buf3 rem3 =>
              cases out3 with
              | error e => exact handleReadExc_fst _ _ _ _ _ _
              | ok p2 => rfl
          next hbig =>
            cases hr2 : sslRead rie false
                ((size.getD 0 : Int) - (fh.length : Int)) rem1 buf1 with
            | mk out2 buf2 rem2 =>
            cases out2 with
            | error e => exact handleReadExc_fst _ _ _ _ _ _
            | ok payload => rfl

/-- The outcome of a framed write never consults the `connected` flag. -/
theorem transport_write_fst_connected_irrel (c1 c2 : Bool)
    (rb : List Nat) (rie : Bool) (ev : List SendEvent) (s : List Nat) :
    (transport_write ⟨c1, rb, rie⟩ ev s).1 =
      (transport_write ⟨c2, rb, rie⟩ ev s).1 := by
  unfold transport_write
  cases hw : sslWrite ev s with
  | mk out rem0 =>
  cases out with
  | ok u => rfl
  | error e =>
    cases e with
    | timeout => rfl
    | valueErr => rfl
    | connClosed => rfl
    | oserr eo =>
      dsimp only
      split <;> rfl

/-- C3 (amended): a non-timeout I/O error raised during a framed read or
framed write propagates, and it marks the transport disconnected exactly
when its errno is not one of `_UNAVAIL` = {EAGAIN, EINTR, ENOENT,
EWOULDBLOCK} (an error without an errno, such as the connection-closed
`IOError`, always disconnects); an error whose errno is in `_UNAVAIL`
propagates with the `connected` flag unchanged.  No subsequent-call
short-circuit exists: the outcome of a framed read or write does not
depend on the `connected` flag at all. -/
theorem disconnect_policy :
    (∀ (st : TState) (ev : List RecvEvent) (vt : Option Nat)
        (eo : Option Nat) (st' : TState) (rem : List RecvEvent),
      transport_read st ev vt = (.error (.oserr eo), st', rem) →
        st'.connected = (st.connected && unavailMem eo)) ∧
    (∀ (st : TState) (ev : List RecvEvent) (vt : Option Nat) (st' : TState)
        (rem : List RecvEvent),
      transport_read st ev vt = (.error .connClosed, st', rem) →
        st'.connected = false) ∧
    (∀ (st : TState) (ev : List SendEvent) (s : List Nat) (eo : Option Nat)
        (st' : TState) (rem : List SendEvent),
      transport_write st ev s = (.error (.oserr eo), st', rem) →
        st'.connected = (st.connected && unavailMem eo)) ∧
    (∀ (st : TState) (ev : List SendEvent) (s : List Nat) (st' : TState)
        (rem : List SendEvent),
      transport_write st ev s = (.error .connClosed, st', rem) →
        st'.connected = false) ∧
    (∀ (c1 c2 : Bool) (rb : List Nat) (rie : Bool) (ev : List RecvEvent)
        (vt : Option Nat),
      (transport_read ⟨c1, rb, rie⟩ ev vt).1 =
        (transport_read ⟨c2, rb, rie⟩ ev vt).1) ∧
    (∀ (c1 c2 : Bool) (rb : List Nat) (rie : Bool) (ev : List SendEvent)
        (s : List Nat),
      (transport_write ⟨c1, rb, rie⟩ ev s).1 =
        (transport_write ⟨c2, rb, rie⟩ ev s).1) :=
  ⟨transport_read_oserr_connected, transport_read_connClosed_connected,
    transport_write_oserr_connected, transport_write_connClosed_connected,
    transport_read_fst_connected_irrel, transport_write_fst_connected_irrel⟩

/-- Witness for C3 (amended): a read failing with errno 9 (not in
`_UNAVAIL`) disconnects; a write failing with errno `EINTR` (in
`_UNAVAIL`) leaves the flag as it was. -/
theorem disconnect_policy_witness :
    ((⟨false, [], true⟩ : TState).connected =
      ((⟨true, [], true⟩ : TState).connected && unavailMem (some 9))) ∧
    ((⟨true, [], true⟩ : TState).connected =
      ((⟨true, [], true⟩ : TState).connected && unavailMem (some EINTR))) :=
  ⟨disconnect_policy.1 ⟨true, [], true⟩ [.exn (.oserror (some 9))] (some 0)
      (some 9) ⟨false, [], true⟩ [] (by decide),
    disconnect_policy.2.2.1 ⟨true, [], true⟩ [.exn (.oserror (some EINTR))]
      [1, 2, 3] (some EINTR) ⟨true, [], true⟩ [] (by decide)⟩
